import Mathlib

/-
Verification of the scene-segmentation controller and the incremental
transcript accumulator of the storyteller app. The controller logic comes
from the Home page component (shrink guard, word-count trigger, pause
trigger, manual trigger, handleGenerateScene); the accumulator logic
comes from the StoryRecorder component (onresult baking, sync effect,
stopRecording, clearTranscript). Transcripts are modelled as lists of
characters; the processing ref and the captured handleGenerateScene
locals are modelled by the inFlight field, which holds the dispatched
text while a round is outstanding.
-/

namespace Storyteller

/-- Whitespace test used by the transcript logic, covering the
whitespace characters relevant to the regex class and the trim calls of
the source. -/
def isWs (c : Char) : Bool :=
  c == ' ' || c == '\t' || c == '\n' || c == '\r'

/-- Embedding of the trim calls of the source: remove whitespace from
both ends of the character list. -/
def trimChars (s : List Char) : List Char :=
  ((s.dropWhile isWs).reverse.dropWhile isWs).reverse

/-- Split at every whitespace character. Together with the nonempty
filter below this yields the same token count as the source, which
splits on whitespace runs and then filters out empty tokens. -/
def splitOnWs : List Char → List (List Char)
  | [] => [[]]
  | c :: cs =>
    if isWs c then [] :: splitOnWs cs
    else
      match splitOnWs cs with
      | [] => [[c]]
      | w :: ws => (c :: w) :: ws

/-- Word count of a text, as the source computes it for the word-count
trigger: trim, split on whitespace, keep nonempty tokens, count. -/
def wordCount (s : List Char) : Nat :=
  ((splitOnWs (trimChars s)).filter (fun w => decide (0 < w.length))).length

/-- State of the StoryRecorder component: the three transcript parts,
the last synced transcript value, and the recording ref that is the
immediate source of truth for whether results should be accepted. -/
structure RecState where
  baseTranscript : List Char
  sessionTranscript : List Char
  interimTranscript : List Char
  transcript : List Char
  isRecordingRef : Bool
  deriving DecidableEq

/-- The authoritative text the sync effect computes: plain concatenation
of the three transcript parts, exactly as in the source. -/
def fullText (rs : RecState) : List Char :=
  rs.baseTranscript ++ rs.sessionTranscript ++ rs.interimTranscript

/-- Embedding of the onresult handler: ignore the event unless the
recording ref is set; bake a nonempty final chunk into the base with a
single normalizing space when the base is nonempty and does not already
end in a space, clearing the session; always replace the interim
wholesale. -/
def onresult (rs : RecState) (finalChunk interimChunk : List Char) : RecState :=
  if rs.isRecordingRef = false then rs
  else
    let rs1 :=
      if finalChunk = [] then rs
      else
        let textToAppend := trimChars finalChunk
        let spacer : List Char :=
          if rs.baseTranscript ≠ [] ∧ rs.baseTranscript.getLast? ≠ some ' '
          then [' '] else []
        { rs with baseTranscript := rs.baseTranscript ++ spacer ++ textToAppend,
                  sessionTranscript := [] }
    { rs1 with interimTranscript := interimChunk }

/-- Embedding of the sync-with-parent effect: recompute the full text
and, only when it differs from the stored transcript, store it and
notify the consumer (the second component is the notification). -/
def syncEffect (rs : RecState) : RecState × Option (List Char) :=
  if fullText rs ≠ rs.transcript
  then ({ rs with transcript := fullText rs }, some (fullText rs))
  else (rs, none)

/-- Embedding of stopRecording: drop the recording flag and ref; the
transcript parts are left untouched. -/
def stopRecording (rs : RecState) : RecState :=
  { rs with isRecordingRef := false }

/-- Embedding of clearTranscript: reset all transcript fields to empty,
notify the consumer with the empty text, and stop recording if a
session is active. -/
def clearTranscript (rs : RecState) : RecState × List Char :=
  let rs1 := { rs with
    transcript := []
    baseTranscript := []
    sessionTranscript := []
    interimTranscript := [] }
  (if rs1.isRecordingRef then stopRecording rs1 else rs1, [])

/-- Spec-side definition for the refinement comparison of the
authoritative text. Modelled from the spec wording: concatenated with
separator normalization, ensuring a single space boundary between
nonempty parts. -/
def joinNorm (a b : List Char) : List Char :=
  if a = [] then b
  else if b = [] then a
  else if a.getLast? = some ' ' then a ++ b
  else a ++ [' '] ++ b

/-- Spec-side authoritative text: the three parts joined with the
single-space-boundary normalization the spec describes. -/
def fullTextSpec (rs : RecState) : List Char :=
  joinNorm (joinNorm rs.baseTranscript rs.sessionTranscript) rs.interimTranscript

/-- A scene as stored by the Home page: image reference, narrative
text, and the numeric id taken from the clock at creation. -/
structure Scene where
  image : List Char
  narrative : List Char
  id : Nat
  deriving DecidableEq

/-- The values a pause-trigger timeout closure captures at arming time:
the transcript and cursor of the effect run that armed it, the pending
text computed in that run, and the delay in milliseconds. -/
structure TimerClosure where
  capturedTranscript : List Char
  capturedProcessed : Nat
  newText : List Char
  delay : Nat
  deriving DecidableEq

/-- State of the Home page segmentation controller. The inFlight field
models the processing ref together with the text captured by
handleGenerateScene for the outstanding round: the ref is set exactly
when inFlight is some, and the captured lengthProcessed is the length
of the stored text. -/
structure SegState where
  scenes : List Scene
  currentTranscript : List Char
  lastProcessedLength : Nat
  inFlight : Option (List Char)
  timer : Option TimerClosure
  deriving DecidableEq

/-- The parsed body of a generate-scene response. -/
structure SceneData where
  success : Bool
  image : Option (List Char)
  narrative : List Char
  deriving DecidableEq

/-- Outcome of a segmentation round: failure covers a network error and
a non-ok response (both reach the catch block); result carries the
parsed response body. -/
inductive RoundOutcome where
  | failure : RoundOutcome
  | result : SceneData → RoundOutcome
  deriving DecidableEq

/-- JavaScript truthiness of the optional image string: present and
nonempty. -/
def truthyStr : Option (List Char) → Bool
  | none => false
  | some s => !s.isEmpty

/-- Entry of handleGenerateScene up to the suspending request: bail out
on blank text or when a round is already in flight, otherwise set the
guard and capture the dispatched text. -/
def beginGenerate (st : SegState) (text : List Char) : SegState :=
  if trimChars text = [] ∨ st.inFlight.isSome then st
  else { st with inFlight := some text }

/-- Completion of handleGenerateScene: on a successful response with a
truthy image, append the scene and advance the cursor by the captured
length of the dispatched text; otherwise change nothing. The finally
block clears the guard on every path. -/
def finishGenerate (st : SegState) (r : RoundOutcome) (now : Nat) : SegState :=
  match st.inFlight with
  | none => st
  | some text =>
    match r with
    | .failure => { st with inFlight := none }
    | .result d =>
      if d.success = true ∧ truthyStr d.image = true then
        { st with
            scenes := st.scenes ++ [{ image := d.image.getD [],
                                      narrative := d.narrative, id := now }],
            lastProcessedLength := st.lastProcessedLength + text.length,
            inFlight := none }
      else { st with inFlight := none }

/-- An outcome that does not produce a scene: a thrown failure, or a
response whose body is not a success with a truthy image. -/
def isFailureOutcome : RoundOutcome → Bool
  | .failure => true
  | .result d => !(d.success && truthyStr d.image)

/-- One run of the Home page effect on its dependencies: the cleanup of
the previous run has cleared any armed timer; then the shrink guard
clamps and stops, the word-count trigger dispatches immediately, and
otherwise the pause timer is armed with the values the timeout closure
captures. -/
def effectStep (st : SegState) : SegState :=
  let st0 : SegState := { st with timer := none }
  if st0.currentTranscript.length < st0.lastProcessedLength then
    { st0 with lastProcessedLength := st0.currentTranscript.length }
  else
    let newText := st0.currentTranscript.drop st0.lastProcessedLength
    if 25 ≤ wordCount newText ∧ st0.inFlight = none then
      beginGenerate st0 newText
    else
      { st0 with timer := some { capturedTranscript := st0.currentTranscript,
                                 capturedProcessed := st0.lastProcessedLength,
                                 newText := newText, delay := 3000 } }

/-- The effect runs again when its dependency lastProcessedLength was
changed by the previous run (the only field of the dependency list an
effect run can change); a clamp changes it at most once, so two runs
reach a fixpoint. -/
def effectCascade (st : SegState) : SegState :=
  let st1 := effectStep st
  if st1.lastProcessedLength ≠ st.lastProcessedLength then effectStep st1 else st1

/-- The pause timeout firing: using the closure-captured transcript and
cursor, dispatch the captured pending text when enough new text accrued
beyond the cursor, no round is in flight, and the pending text is not
blank. -/
def fireTimer (st : SegState) (tc : TimerClosure) : SegState :=
  if tc.capturedProcessed + 10 < tc.capturedTranscript.length ∧ st.inFlight = none then
    if trimChars tc.newText ≠ [] then beginGenerate st tc.newText else st
  else st

/-- The discrete events the controller reacts to. -/
inductive Event where
  | transcriptChange : List Char → Event
  | timerElapse : Event
  | manualGenerate : Event
  | roundResult : RoundOutcome → Nat → Event
  | clearHistory : Event
  deriving DecidableEq

/-- Whether an event is the completion of an outstanding round. -/
def Event.isRoundResult : Event → Bool
  | .roundResult _ _ => true
  | _ => false

/-- One reaction of the Home page: a transcript change reruns the
effect, an elapsed timeout fires its captured closure once, the manual
button dispatches the pending text when its trimmed length exceeds
three, a round completion applies the result and reruns the effect when
the cursor moved, and the clear-history button empties the scene list
only. -/
def step (st : SegState) (e : Event) : SegState :=
  match e with
  | .transcriptChange t =>
    if t = st.currentTranscript then st
    else effectCascade { st with currentTranscript := t }
  | .timerElapse =>
    match st.timer with
    | none => st
    | some tc => fireTimer { st with timer := none } tc
  | .manualGenerate =>
    let newText := st.currentTranscript.drop st.lastProcessedLength
    if 3 < (trimChars newText).length then beginGenerate st newText else st
  | .roundResult r now =>
    let st1 := finishGenerate st r now
    if st1.lastProcessedLength ≠ st.lastProcessedLength then effectCascade st1 else st1
  | .clearHistory => { st with scenes := [] }

/-- A narration of exactly twenty-five whitespace-delimited words. -/
def w25 : List Char := ("word word word word word word word word word word word word word word word word word word word word word word word word word" : String).toList

/-- A narration of exactly twenty-four whitespace-delimited words. -/
def w24 : List Char := ("word word word word word word word word word word word word word word word word word word word word word word word word" : String).toList

/-- Concrete controller state whose pending text has twenty-five
words. -/
def stWord25 : SegState :=
  { scenes := [], currentTranscript := w25, lastProcessedLength := 0,
    inFlight := none, timer := none }

/-- Concrete controller state whose pending text has twenty-four
words. -/
def stWord24 : SegState :=
  { scenes := [], currentTranscript := w24, lastProcessedLength := 0,
    inFlight := none, timer := none }

/-- Concrete controller state used to instantiate the shrink guard:
the transcript is two characters while the cursor is five. -/
def stShrink : SegState :=
  { scenes := [], currentTranscript := "ab".toList, lastProcessedLength := 5,
    inFlight := none, timer := none }

/-- Concrete controller state with a round in flight for the text
abc. -/
def stBusy : SegState :=
  { scenes := [], currentTranscript := "abc def".toList, lastProcessedLength := 0,
    inFlight := some ("abc".toList), timer := none }

/-- Concrete controller state with no round in flight. -/
def stFree : SegState :=
  { scenes := [], currentTranscript := "hello there".toList, lastProcessedLength := 0,
    inFlight := none, timer := none }

/-- Concrete controller state for the commit protocol: the round was
dispatched with the pending slice of the text abcde past cursor two,
and the transcript has since grown by XY. -/
def stC1 : SegState :=
  { scenes := [], currentTranscript := "abcdeXY".toList, lastProcessedLength := 2,
    inFlight := some ("cde".toList), timer := none }

/-- A successful generate-scene response body. -/
def dC1 : SceneData :=
  { success := true, image := some ("img".toList), narrative := "cde".toList }

/-- The recorder state before any narration: everything empty and the
recording ref set. -/
def rsEmpty : RecState :=
  { baseTranscript := [], sessionTranscript := [], interimTranscript := [],
    transcript := [], isRecordingRef := true }

/-- A reachable recorder state: a final chunk a was baked into the
base, then an interim chunk b arrived. -/
def rsC6 : RecState := onresult (onresult rsEmpty ("a".toList) []) [] ("b".toList)

/-- A recorder state in the middle of a session, with all three
transcript parts nonempty. -/
def rsRec : RecState :=
  { baseTranscript := "b".toList, sessionTranscript := "s".toList,
    interimTranscript := "i".toList, transcript := "bsi".toList,
    isRecordingRef := true }

/-- A recorder state whose recording ref is down. -/
def rsStopped : RecState :=
  { baseTranscript := "kept".toList, sessionTranscript := "s".toList,
    interimTranscript := "i".toList, transcript := "kept si".toList,
    isRecordingRef := false }

/-- Concrete controller state with one accumulated scene, a nonempty
transcript, and a nonzero cursor. -/
def stC8 : SegState :=
  { scenes := [{ image := "i".toList, narrative := "n".toList, id := 1 }],
    currentTranscript := "hello".toList, lastProcessedLength := 5,
    inFlight := none, timer := none }

/-- A transcript long enough for the pause trigger length check. -/
def wPause : List Char := "hello world again".toList

/-- The armed pause-timer closure for wPause at cursor zero. -/
def tcPause : TimerClosure :=
  { capturedTranscript := wPause, capturedProcessed := 0,
    newText := wPause, delay := 3000 }

/-- Controller state with the pause timer armed for wPause. -/
def stPause : SegState :=
  { scenes := [], currentTranscript := wPause, lastProcessedLength := 0,
    inFlight := none, timer := some tcPause }

/-- The closure the effect arms after the transcript changes to x. -/
def tcPause2 : TimerClosure :=
  { capturedTranscript := "x".toList, capturedProcessed := 0,
    newText := "x".toList, delay := 3000 }

/-- The word count of the empty text is zero. -/
theorem wordCount_nil : wordCount [] = 0 := rfl

/-- A text with an empty trim has word count zero. -/
theorem wordCount_eq_zero (s : List Char) (h : trimChars s = []) :
    wordCount s = 0 := by
  unfold wordCount
  rw [h]
  rfl

/-- A text with a positive word count has a nonempty trim. -/
theorem trim_ne_nil_of_wordCount_pos (s : List Char) (h : 0 < wordCount s) :
    trimChars s ≠ [] := by
  intro hnil
  rw [wordCount_eq_zero s hnil] at h
  exact Nat.lt_irrefl 0 h

/-- When the pending slice has at least twenty-five words the transcript
cannot be shorter than the cursor. -/
theorem not_shrunk_of_wordCount (t : List Char) (p : Nat)
    (h : 25 ≤ wordCount (t.drop p)) : ¬ t.length < p := by
  intro hlt
  rw [List.drop_eq_nil_of_le (Nat.le_of_lt hlt), wordCount_nil] at h
  exact absurd h (by decide)

/-- An effect run never changes the transcript. -/
theorem effectStep_currentTranscript (st : SegState) :
    (effectStep st).currentTranscript = st.currentTranscript := by
  unfold effectStep beginGenerate
  dsimp only
  split_ifs <;> rfl

/-- An effect run never changes the scene list. -/
theorem effectStep_scenes (st : SegState) :
    (effectStep st).scenes = st.scenes := by
  unfold effectStep beginGenerate
  dsimp only
  split_ifs <;> rfl

/-- An effect run while a round is in flight leaves the guard and its
captured text untouched: no trigger path can dispatch. -/
theorem effectStep_inFlight_of_some (st : SegState) (t : List Char)
    (h : st.inFlight = some t) : (effectStep st).inFlight = some t := by
  unfold effectStep beginGenerate
  dsimp only
  split_ifs with h1 h2 h3 <;> simp_all

/-- Any timer armed by an effect run captures exactly the transcript,
cursor, and pending text of that run, with the three-second delay. -/
theorem effectStep_timer_arm (st : SegState) (tc : TimerClosure)
    (h : (effectStep st).timer = some tc) :
    tc = { capturedTranscript := st.currentTranscript,
           capturedProcessed := st.lastProcessedLength,
           newText := st.currentTranscript.drop st.lastProcessedLength,
           delay := 3000 } := by
  unfold effectStep beginGenerate at h
  dsimp only at h
  split_ifs at h with h1 h2 h3
  simp_all

/-- An effect run changes the cursor only by the shrink clamp, which
sets it to the transcript length. -/
theorem effectStep_cursor (st : SegState) :
    (effectStep st).lastProcessedLength = st.lastProcessedLength ∨
    ((effectStep st).lastProcessedLength = st.currentTranscript.length ∧
      st.currentTranscript.length < st.lastProcessedLength) := by
  unfold effectStep beginGenerate
  dsimp only
  split_ifs with h1 h2 h3
  · exact Or.inr ⟨rfl, h1⟩
  · exact Or.inl rfl
  · exact Or.inl rfl
  · exact Or.inl rfl

/-- The two-run effect cascade while a round is in flight leaves the
guard and its captured text untouched. -/
theorem effectCascade_inFlight_of_some (st : SegState) (t : List Char)
    (h : st.inFlight = some t) : (effectCascade st).inFlight = some t := by
  unfold effectCascade
  dsimp only
  split_ifs
  · exact effectStep_inFlight_of_some _ t (effectStep_inFlight_of_some _ t h)
  · exact effectStep_inFlight_of_some _ t h

/-- The two-run effect cascade never changes the transcript. -/
theorem effectCascade_currentTranscript (st : SegState) :
    (effectCascade st).currentTranscript = st.currentTranscript := by
  unfold effectCascade
  dsimp only
  split_ifs
  · rw [effectStep_currentTranscript, effectStep_currentTranscript]
  · rw [effectStep_currentTranscript]

/-- The two-run effect cascade never changes the scene list. -/
theorem effectCascade_scenes (st : SegState) :
    (effectCascade st).scenes = st.scenes := by
  unfold effectCascade
  dsimp only
  split_ifs
  · rw [effectStep_scenes, effectStep_scenes]
  · rw [effectStep_scenes]

/-- On an update whose transcript is strictly shorter than the cursor,
the effect cascade clamps the cursor and changes nothing else that
matters to triggering. -/
theorem effectCascade_shrink (st : SegState)
    (h : st.currentTranscript.length < st.lastProcessedLength) :
    (effectCascade st).lastProcessedLength = st.currentTranscript.length ∧
    (effectCascade st).inFlight = st.inFlight ∧
    (effectCascade st).scenes = st.scenes ∧
    (effectCascade st).currentTranscript = st.currentTranscript := by
  have h1 : effectStep st =
      { st with timer := none,
                lastProcessedLength := st.currentTranscript.length } := by
    unfold effectStep
    dsimp only
    rw [if_pos h]
  have hne : st.currentTranscript.length ≠ st.lastProcessedLength :=
    Nat.ne_of_lt h
  have h2 : effectCascade st =
      effectStep { st with timer := none,
                           lastProcessedLength := st.currentTranscript.length } := by
    unfold effectCascade
    dsimp only
    rw [h1]
    exact if_pos hne
  have h3 : effectStep { st with timer := none,
                                 lastProcessedLength := st.currentTranscript.length } =
      { st with lastProcessedLength := st.currentTranscript.length,
                timer := some { capturedTranscript := st.currentTranscript,
                                capturedProcessed := st.currentTranscript.length,
                                newText := [], delay := 3000 } } := by
    unfold effectStep
    dsimp only
    rw [if_neg (Nat.lt_irrefl _), List.drop_length]
    rw [if_neg (by rw [wordCount_nil]; exact fun hc => absurd hc.1 (by decide))]
  rw [h2, h3]
  exact ⟨rfl, rfl, rfl, rfl⟩

/-- C2: on an update whose transcript is strictly shorter than the
cursor, the full effect cascade clamps the cursor down to the new
transcript length and triggers no segmentation: the in-flight slot, the
scene list, and the transcript are all unchanged. -/
theorem shrink_clamps_without_trigger (st : SegState)
    (h : st.currentTranscript.length < st.lastProcessedLength) :
    (effectCascade st).lastProcessedLength = st.currentTranscript.length ∧
    (effectCascade st).inFlight = st.inFlight ∧
    (effectCascade st).scenes = st.scenes ∧
    (effectCascade st).currentTranscript = st.currentTranscript :=
  effectCascade_shrink st h

/-- A closed instance of the shrink guard: a transcript of length two
against a cursor of five clamps to two with nothing else changed. -/
theorem shrink_clamps_without_trigger_witness :
    (stShrink.currentTranscript.length < stShrink.lastProcessedLength) ∧
    ((effectCascade stShrink).lastProcessedLength
        = stShrink.currentTranscript.length ∧
      (effectCascade stShrink).inFlight = stShrink.inFlight ∧
      (effectCascade stShrink).scenes = stShrink.scenes ∧
      (effectCascade stShrink).currentTranscript = stShrink.currentTranscript) :=
  ⟨by decide, shrink_clamps_without_trigger stShrink (by decide)⟩

/-- C3: on an update with no round in flight, a pending text of at
least twenty-five words dispatches immediately with exactly that
pending text, while a pending text of exactly twenty-four words causes
no immediate dispatch and leaves the scene list alone. -/
theorem word_count_trigger_boundary (st st24 : SegState)
    (hfree : st.inFlight = none)
    (h25 : 25 ≤ wordCount (st.currentTranscript.drop st.lastProcessedLength))
    (hfree24 : st24.inFlight = none)
    (h24 : wordCount (st24.currentTranscript.drop st24.lastProcessedLength) = 24) :
    effectStep st =
      { st with timer := none,
                inFlight := some (st.currentTranscript.drop st.lastProcessedLength) } ∧
    (effectStep st24).inFlight = none ∧
    (effectStep st24).scenes = st24.scenes := by
  have hns : ¬ st.currentTranscript.length < st.lastProcessedLength :=
    not_shrunk_of_wordCount _ _ h25
  have htr : trimChars (st.currentTranscript.drop st.lastProcessedLength) ≠ [] :=
    trim_ne_nil_of_wordCount_pos _ (Nat.lt_of_lt_of_le (by decide) h25)
  refine ⟨?_, ?_⟩
  · unfold effectStep
    dsimp only
    rw [if_neg hns, if_pos ⟨h25, hfree⟩]
    unfold beginGenerate
    rw [if_neg (by
      intro hor
      rcases hor with hA | hB
      · exact htr hA
      · rw [hfree] at hB
        exact absurd hB (by decide))]
  · have hpend : st24.currentTranscript.drop st24.lastProcessedLength ≠ [] := by
      intro hnil
      rw [hnil, wordCount_nil] at h24
      exact absurd h24 (by decide)
    have hns24 : ¬ st24.currentTranscript.length < st24.lastProcessedLength := by
      intro hlt
      exact hpend (List.drop_eq_nil_of_le (Nat.le_of_lt hlt))
    have hcond : ¬ (25 ≤ wordCount (st24.currentTranscript.drop st24.lastProcessedLength)
        ∧ st24.inFlight = none) := by
      intro hc
      rw [h24] at hc
      exact absurd hc.1 (by decide)
    unfold effectStep
    dsimp only
    rw [if_neg hns24, if_neg hcond]
    exact ⟨hfree24, rfl⟩

/-- A closed instance of the word-count boundary: twenty-five words
dispatch immediately, twenty-four do not. -/
theorem word_count_trigger_boundary_witness :
    stWord25.inFlight = none ∧
    25 ≤ wordCount (stWord25.currentTranscript.drop stWord25.lastProcessedLength) ∧
    stWord24.inFlight = none ∧
    wordCount (stWord24.currentTranscript.drop stWord24.lastProcessedLength) = 24 ∧
    (effectStep stWord25 =
      { stWord25 with
          timer := none
          inFlight := some (stWord25.currentTranscript.drop stWord25.lastProcessedLength) } ∧
      (effectStep stWord24).inFlight = none ∧
      (effectStep stWord24).scenes = stWord24.scenes) :=
  ⟨rfl, by decide, rfl, by decide,
    word_count_trigger_boundary stWord25 stWord24 rfl (by decide) rfl (by decide)⟩

/-- C4: at most one round is in flight: while the guard holds some
dispatched text, every event other than the completion of the round
leaves it untouched; the completion clears it on every outcome; and an
actual dispatch sets the guard with the dispatched text before the
request is awaited. -/
theorem in_flight_guard_exclusive (st st2 : SegState) (t text : List Char)
    (e : Event) (r : RoundOutcome) (now : Nat)
    (hin : st.inFlight = some t) (he : e.isRoundResult = false)
    (htext : trimChars text ≠ []) (hfree2 : st2.inFlight = none) :
    (step st e).inFlight = some t ∧
    (finishGenerate st r now).inFlight = none ∧
    (beginGenerate st2 text).inFlight = some text := by
  refine ⟨?_, ?_, ?_⟩
  · cases e with
    | transcriptChange tt =>
      unfold step
      dsimp only
      split_ifs with hsame
      · exact hin
      · exact effectCascade_inFlight_of_some _ t hin
    | timerElapse =>
      unfold step
      dsimp only
      rcases hT : st.timer with _ | tc
      · simp only [hT]
        exact hin
      · simp only [hT]
        unfold fireTimer
        dsimp only
        rw [if_neg (by
          intro hc
          rw [hin] at hc
          exact Option.noConfusion hc.2)]
        exact hin
    | manualGenerate =>
      unfold step beginGenerate
      dsimp only
      split_ifs with h1 h2
      · exact hin
      · exfalso
        apply h2
        right
        rw [hin]
        rfl
      · exact hin
    | roundResult r2 n2 =>
      exact absurd he (by simp [Event.isRoundResult])
    | clearHistory => exact hin
  · unfold finishGenerate
    rw [hin]
    cases r with
    | failure => rfl
    | result d =>
      dsimp only
      split_ifs <;> rfl
  · unfold beginGenerate
    rw [if_neg (by
      intro hor
      rcases hor with hA | hB
      · exact htext hA
      · rw [hfree2] at hB
        exact absurd hB (by decide))]

/-- A closed instance of the in-flight guard: the manual trigger is a
no-op while a round is outstanding, the completion clears the guard,
and a fresh dispatch sets it. -/
theorem in_flight_guard_exclusive_witness :
    stBusy.inFlight = some ("abc".toList) ∧
    Event.isRoundResult Event.manualGenerate = false ∧
    trimChars ("hello".toList) ≠ [] ∧
    stFree.inFlight = none ∧
    ((step stBusy Event.manualGenerate).inFlight = some ("abc".toList) ∧
      (finishGenerate stBusy RoundOutcome.failure 0).inFlight = none ∧
      (beginGenerate stFree ("hello".toList)).inFlight = some ("hello".toList)) :=
  ⟨rfl, rfl, by decide, rfl,
    in_flight_guard_exclusive stBusy stFree ("abc".toList) ("hello".toList)
      Event.manualGenerate RoundOutcome.failure 0 rfl rfl (by decide) rfl⟩

/-- C5: a failing round — a thrown network or non-ok failure, or a
response without a successful truthy image — changes nothing but the
guard: the cursor, the scene list, and the transcript are preserved
exactly, and the completion event dispatches no retry. -/
theorem failed_round_changes_nothing (st : SegState) (t : List Char)
    (r : RoundOutcome) (now : Nat)
    (hin : st.inFlight = some t) (hf : isFailureOutcome r = true) :
    finishGenerate st r now = { st with inFlight := none } ∧
    step st (Event.roundResult r now) = { st with inFlight := none } := by
  have h1 : finishGenerate st r now = { st with inFlight := none } := by
    unfold finishGenerate
    rw [hin]
    cases r with
    | failure => rfl
    | result d =>
      dsimp only
      rw [if_neg (by
        intro hc
        simp only [isFailureOutcome] at hf
        rw [hc.1, hc.2] at hf
        exact absurd hf (by decide))]
  refine ⟨h1, ?_⟩
  unfold step
  dsimp only
  rw [h1]
  rw [if_neg (by intro hne; exact hne rfl)]

/-- A closed instance of a failed round: a response that reports
success but carries an empty image string produces no scene and leaves
the state unchanged apart from the cleared guard. -/
theorem failed_round_changes_nothing_witness :
    stBusy.inFlight = some ("abc".toList) ∧
    isFailureOutcome (RoundOutcome.result
      { success := true, image := some [], narrative := "n".toList }) = true ∧
    (finishGenerate stBusy (RoundOutcome.result
        { success := true, image := some [], narrative := "n".toList }) 3
      = { stBusy with inFlight := none } ∧
      step stBusy (Event.roundResult (RoundOutcome.result
        { success := true, image := some [], narrative := "n".toList }) 3)
      = { stBusy with inFlight := none }) :=
  ⟨rfl, rfl,
    failed_round_changes_nothing stBusy ("abc".toList)
      (RoundOutcome.result { success := true, image := some [], narrative := "n".toList })
      3 rfl rfl⟩

/-- C1: on a successful round that dispatched the pending slice of the
transcript under cursor position p, the cursor advances by exactly the
length of the dispatched text, and when the transcript grew by some
suffix during the round, the pending text after the commit is exactly
that suffix: nothing is lost or duplicated. -/
theorem commit_preserves_accrued_narration
    (st : SegState) (t0 extra : List Char) (d : SceneData) (now : Nat)
    (hin : st.inFlight = some (t0.drop st.lastProcessedLength))
    (hgrow : st.currentTranscript = t0 ++ extra)
    (hp : st.lastProcessedLength ≤ t0.length)
    (hs : d.success = true) (himg : truthyStr d.image = true) :
    (finishGenerate st (RoundOutcome.result d) now).lastProcessedLength
      = st.lastProcessedLength + (t0.drop st.lastProcessedLength).length ∧
    (finishGenerate st (RoundOutcome.result d) now).currentTranscript.drop
      (finishGenerate st (RoundOutcome.result d) now).lastProcessedLength
      = extra := by
  have h1 : finishGenerate st (RoundOutcome.result d) now =
      { st with
          scenes := st.scenes ++ [{ image := d.image.getD [],
                                    narrative := d.narrative, id := now }],
          lastProcessedLength :=
            st.lastProcessedLength + (t0.drop st.lastProcessedLength).length,
          inFlight := none } := by
    unfold finishGenerate
    rw [hin]
    dsimp only
    rw [if_pos ⟨hs, himg⟩]
  rw [h1]
  dsimp only
  refine ⟨rfl, ?_⟩
  rw [List.length_drop, Nat.add_sub_cancel' hp, hgrow, List.drop_left]

/-- A closed instance of the commit protocol: the round dispatched the
slice cde of abcde past cursor two; the transcript grew to abcdeXY
during the round; after the commit the cursor is five and the pending
text is exactly XY. -/
theorem commit_preserves_accrued_narration_witness :
    stC1.inFlight = some (("abcde".toList).drop stC1.lastProcessedLength) ∧
    stC1.currentTranscript = "abcde".toList ++ "XY".toList ∧
    stC1.lastProcessedLength ≤ ("abcde".toList).length ∧
    dC1.success = true ∧
    truthyStr dC1.image = true ∧
    ((finishGenerate stC1 (RoundOutcome.result dC1) 7).lastProcessedLength
        = stC1.lastProcessedLength
          + (("abcde".toList).drop stC1.lastProcessedLength).length ∧
      (finishGenerate stC1 (RoundOutcome.result dC1) 7).currentTranscript.drop
        (finishGenerate stC1 (RoundOutcome.result dC1) 7).lastProcessedLength
        = "XY".toList) :=
  ⟨by decide, by decide, by decide, rfl, by decide,
    commit_preserves_accrued_narration stC1 ("abcde".toList) ("XY".toList) dC1 7
      (by decide) (by decide) (by decide) rfl (by decide)⟩

/-- The in-flight slot of the fired timer, as a function of the
closure-captured length check, the fresh guard read, and the blank
check of the captured pending text. -/
theorem fireTimer_inFlight (st : SegState) (tc : TimerClosure) :
    (fireTimer st tc).inFlight =
      if tc.capturedProcessed + 10 < tc.capturedTranscript.length
          ∧ st.inFlight = none ∧ trimChars tc.newText ≠ []
      then some tc.newText else st.inFlight := by
  unfold fireTimer beginGenerate
  by_cases hA : tc.capturedProcessed + 10 < tc.capturedTranscript.length
  <;> by_cases hB : st.inFlight = none
  <;> by_cases hC : trimChars tc.newText = []
  <;> simp [hA, hB, hC]

/-- C9: when the armed pause timer elapses, having captured the current
transcript, cursor, and pending text, the round it dispatches is the
captured pending text and it dispatches exactly when the transcript
exceeds the cursor by more than ten characters, no round is in flight,
and the pending text is not blank; and a transcript change replaces the
armed timer by a fresh three-second closure capturing the new
transcript. -/
theorem pause_trigger_fire_conditions (st : SegState) (tc tc2 : TimerClosure)
    (t2 : List Char)
    (ht : st.timer = some tc)
    (hcap1 : tc.capturedTranscript = st.currentTranscript)
    (hcap2 : tc.capturedProcessed = st.lastProcessedLength)
    (hcap3 : tc.newText = st.currentTranscript.drop st.lastProcessedLength)
    (ht2 : t2 ≠ st.currentTranscript)
    (hre : (step st (Event.transcriptChange t2)).timer = some tc2) :
    ((step st Event.timerElapse).inFlight =
      if st.lastProcessedLength + 10 < st.currentTranscript.length
          ∧ st.inFlight = none
          ∧ trimChars (st.currentTranscript.drop st.lastProcessedLength) ≠ []
      then some (st.currentTranscript.drop st.lastProcessedLength)
      else st.inFlight) ∧
    tc2.delay = 3000 ∧
    tc2.capturedTranscript = t2 := by
  refine ⟨?_, ?_⟩
  · unfold step
    dsimp only
    simp only [ht]
    rw [fireTimer_inFlight]
    rw [hcap1, hcap2, hcap3]
  · unfold step at hre
    dsimp only at hre
    rw [if_neg ht2] at hre
    unfold effectCascade at hre
    dsimp only at hre
    split_ifs at hre with hc
    · have h4 := effectStep_timer_arm _ _ hre
      rw [h4]
      refine ⟨rfl, ?_⟩
      exact effectStep_currentTranscript _
    · have h4 := effectStep_timer_arm _ _ hre
      rw [h4]
      exact ⟨rfl, rfl⟩

/-- A closed instance of the pause trigger: with a seventeen-character
transcript, cursor zero, nothing in flight, and a non-blank pending
text, the elapsed timer dispatches the pending text; a transcript
change to x re-arms a fresh closure capturing x. -/
theorem pause_trigger_fire_conditions_witness :
    stPause.timer = some tcPause ∧
    tcPause.capturedTranscript = stPause.currentTranscript ∧
    tcPause.capturedProcessed = stPause.lastProcessedLength ∧
    tcPause.newText = stPause.currentTranscript.drop stPause.lastProcessedLength ∧
    "x".toList ≠ stPause.currentTranscript ∧
    (step stPause (Event.transcriptChange ("x".toList))).timer = some tcPause2 ∧
    (((step stPause Event.timerElapse).inFlight =
      if stPause.lastProcessedLength + 10 < stPause.currentTranscript.length
          ∧ stPause.inFlight = none
          ∧ trimChars (stPause.currentTranscript.drop stPause.lastProcessedLength) ≠ []
      then some (stPause.currentTranscript.drop stPause.lastProcessedLength)
      else stPause.inFlight) ∧
      tcPause2.delay = 3000 ∧
      tcPause2.capturedTranscript = "x".toList) :=
  ⟨rfl, rfl, rfl, by decide, by decide, by decide,
    pause_trigger_fire_conditions stPause tcPause tcPause2 ("x".toList)
      rfl rfl rfl (by decide) (by decide) (by decide)⟩

/-- C6 counterexample: in the reachable recorder state where the final
chunk a was baked and the interim chunk b arrived, the authoritative
text is the plain concatenation ab, not the space-normalized a b the
claim describes. -/
theorem full_text_not_space_normalized :
    fullText rsC6 = "ab".toList ∧
    fullTextSpec rsC6 = "a b".toList ∧
    fullText rsC6 ≠ fullTextSpec rsC6 := by decide

/-- C6 amended: the authoritative text exposed to the consumer is the
plain concatenation of base, session, and interim with no separator
inserted between the parts, and the sync effect notifies the consumer
exactly when the recomputed text differs from the stored transcript
value, storing what it notifies. -/
theorem full_text_plain_concat_and_notify (rs : RecState) :
    fullText rs = rs.baseTranscript ++ rs.sessionTranscript ++ rs.interimTranscript ∧
    (syncEffect rs).1.transcript = fullText rs ∧
    ((syncEffect rs).2 = none ↔ fullText rs = rs.transcript) ∧
    ((syncEffect rs).2 = some (fullText rs) ↔ fullText rs ≠ rs.transcript) := by
  refine ⟨rfl, ?_, ?_, ?_⟩ <;>
    unfold syncEffect <;>
    by_cases h : fullText rs = rs.transcript <;>
    simp [h]

/-- C7: while recording, a nonempty final chunk is baked into the base
immediately, trimmed and preceded by a single space exactly when the
base is nonempty and does not already end in a space, and the session
is cleared; the interim is replaced wholesale by the event interim on
every event; with no final chunk, base and session are untouched and
only the interim is replaced. -/
theorem onresult_final_bake_and_interim_replace (rs : RecState) (f i j : List Char)
    (hrec : rs.isRecordingRef = true) (hf : f ≠ []) :
    (onresult rs f i).baseTranscript
      = rs.baseTranscript
        ++ (if rs.baseTranscript ≠ [] ∧ rs.baseTranscript.getLast? ≠ some ' '
            then [' '] else [])
        ++ trimChars f ∧
    (onresult rs f i).sessionTranscript = [] ∧
    (onresult rs f i).interimTranscript = i ∧
    onresult rs [] j = { rs with interimTranscript := j } := by
  have hnf : ¬ (rs.isRecordingRef = false) := by
    rw [hrec]
    exact fun hc => Bool.noConfusion hc
  refine ⟨?_, ?_, ?_, ?_⟩
  · unfold onresult
    dsimp only
    rw [if_neg hnf, if_neg hf]
  · unfold onresult
    dsimp only
    rw [if_neg hnf, if_neg hf]
  · unfold onresult
    dsimp only
    rw [if_neg hnf, if_neg hf]
  · unfold onresult
    dsimp only
    rw [if_neg hnf, if_pos rfl]

/-- A closed instance of the onresult contract: baking a final chunk
into a base not ending in a space inserts one space, clears the
session, and replaces the interim; an interim-only event replaces only
the interim. -/
theorem onresult_final_bake_and_interim_replace_witness :
    rsRec.isRecordingRef = true ∧
    ("yo".toList : List Char) ≠ [] ∧
    ((onresult rsRec ("yo".toList) ("zz".toList)).baseTranscript
      = rsRec.baseTranscript
        ++ (if rsRec.baseTranscript ≠ [] ∧ rsRec.baseTranscript.getLast? ≠ some ' '
            then [' '] else [])
        ++ trimChars ("yo".toList) ∧
      (onresult rsRec ("yo".toList) ("zz".toList)).sessionTranscript = [] ∧
      (onresult rsRec ("yo".toList) ("zz".toList)).interimTranscript = "zz".toList ∧
      onresult rsRec [] ("q".toList) = { rsRec with interimTranscript := "q".toList }) :=
  ⟨rfl, by decide,
    onresult_final_bake_and_interim_replace rsRec ("yo".toList) ("zz".toList)
      ("q".toList) rfl (by decide)⟩

/-- C8 counterexample: the clear-history action — the only action that
destroys scenes — empties the scene list but leaves the segmentation
cursor at five and the transcript at hello, so no single clear action
resets transcript state, cursor, and scenes together. -/
theorem clear_history_leaves_cursor_and_transcript :
    (step stC8 Event.clearHistory).scenes = [] ∧
    (step stC8 Event.clearHistory).lastProcessedLength = 5 ∧
    (step stC8 Event.clearHistory).currentTranscript = "hello".toList ∧
    (step stC8 Event.clearHistory).currentTranscript ≠ [] := by decide

/-- C8 amended: the two clear actions split the reset between them: the
clear-history action resets exactly the scene sequence, while the
recorder clear action resets the transcript state to empty and notifies
with the empty text, whereupon the shrink guard clamps the cursor to
zero without touching the scenes or the guard, so subsequent narration
re-triggers from zero. -/
theorem clear_actions_split_scopes (st : SegState) (rs : RecState)
    (h0 : 0 < st.lastProcessedLength) (ht : st.currentTranscript ≠ []) :
    step st Event.clearHistory = { st with scenes := [] } ∧
    (clearTranscript rs).1.baseTranscript = [] ∧
    (clearTranscript rs).1.sessionTranscript = [] ∧
    (clearTranscript rs).1.interimTranscript = [] ∧
    (clearTranscript rs).1.transcript = [] ∧
    (clearTranscript rs).2 = [] ∧
    (step st (Event.transcriptChange [])).lastProcessedLength = 0 ∧
    (step st (Event.transcriptChange [])).scenes = st.scenes ∧
    (step st (Event.transcriptChange [])).inFlight = st.inFlight := by
  have hclear : (clearTranscript rs).1.baseTranscript = [] ∧
      (clearTranscript rs).1.sessionTranscript = [] ∧
      (clearTranscript rs).1.interimTranscript = [] ∧
      (clearTranscript rs).1.transcript = [] ∧
      (clearTranscript rs).2 = [] := by
    unfold clearTranscript stopRecording
    dsimp only
    split_ifs <;> exact ⟨rfl, rfl, rfl, rfl, rfl⟩
  have hne : ([] : List Char) ≠ st.currentTranscript := fun hc => ht hc.symm
  have hsh := effectCascade_shrink { st with currentTranscript := [] }
    (by dsimp only; exact h0)
  refine ⟨rfl, hclear.1, hclear.2.1, hclear.2.2.1, hclear.2.2.2.1,
    hclear.2.2.2.2, ?_, ?_, ?_⟩
  · unfold step
    dsimp only
    rw [if_neg hne]
    exact hsh.1
  · unfold step
    dsimp only
    rw [if_neg hne]
    exact hsh.2.2.1
  · unfold step
    dsimp only
    rw [if_neg hne]
    exact hsh.2.1

/-- A closed instance of the split clear actions at a state with one
scene, cursor five, and transcript hello, and a mid-session recorder
state. -/
theorem clear_actions_split_scopes_witness :
    0 < stC8.lastProcessedLength ∧
    stC8.currentTranscript ≠ [] ∧
    (step stC8 Event.clearHistory = { stC8 with scenes := [] } ∧
      (clearTranscript rsRec).1.baseTranscript = [] ∧
      (clearTranscript rsRec).1.sessionTranscript = [] ∧
      (clearTranscript rsRec).1.interimTranscript = [] ∧
      (clearTranscript rsRec).1.transcript = [] ∧
      (clearTranscript rsRec).2 = [] ∧
      (step stC8 (Event.transcriptChange [])).lastProcessedLength = 0 ∧
      (step stC8 (Event.transcriptChange [])).scenes = stC8.scenes ∧
      (step stC8 (Event.transcriptChange [])).inFlight = stC8.inFlight) :=
  ⟨by decide, by decide,
    clear_actions_split_scopes stC8 rsRec (by decide) (by decide)⟩

/-- C10: a recognition result arriving while the recording ref is down
is ignored entirely — the whole recorder state is unchanged — and in
particular any result delivered after stopRecording leaves the
transcript parts exactly as they were. -/
theorem onresult_ignored_when_not_recording (rs rs2 : RecState)
    (f i g j : List Char) (hrec : rs.isRecordingRef = false) :
    onresult rs f i = rs ∧
    onresult (stopRecording rs2) g j = stopRecording rs2 := by
  constructor
  · unfold onresult
    rw [if_pos hrec]
  · unfold onresult stopRecording
    dsimp only
    rw [if_pos rfl]

/-- A closed instance of the late-result guard: a result with both a
final and an interim chunk leaves a stopped recorder state untouched,
also right after stopRecording. -/
theorem onresult_ignored_when_not_recording_witness :
    rsStopped.isRecordingRef = false ∧
    (onresult rsStopped ("late".toList) ("more".toList) = rsStopped ∧
      onresult (stopRecording rsRec) ("f".toList) ("g".toList)
        = stopRecording rsRec) :=
  ⟨rfl,
    onresult_ignored_when_not_recording rsStopped rsRec ("late".toList)
      ("more".toList) ("f".toList) ("g".toList) rfl⟩

end Storyteller
